import Mathlib

/-!
Verification of the auto chart-bump core of `charts-build-scripts`.

Strings are modelled as `List Char`. The third-party `blang/semver`
library used by the code (`semver.Make`, `Version.LT`, `Version.String`,
`semver.MustParse`) is embedded faithfully from its Go source, with Go's
`uint64` components modelled as `Nat` kept below `2^64` (increments wrap
modulo `2^64`, as Go's `uint64` arithmetic does).  Go methods that mutate
their receiver are embedded as explicit state-passing functions; a Go
`panic` (slice index out of range, `semver.MustParse` failure) is a
distinguished outcome, not an error return.
-/

abbrev Str := List Char

/-! ### Go string primitives used by the code (`strings` package) -/

/-- Go `strings.Contains(s, "+up")`: the fixed marker of composite versions. -/
def containsUp : Str → Bool
  | '+' :: 'u' :: 'p' :: _ => true
  | _ :: rest => containsUp rest
  | [] => false

/-- Go `strings.Split(s, "+up")`: splits around every non-overlapping
occurrence of the marker, scanning left to right. -/
def splitUp : Str → List Str
  | '+' :: 'u' :: 'p' :: rest => [] :: splitUp rest
  | c :: rest =>
    match splitUp rest with
    | [] => [[c]]
    | h :: r => (c :: h) :: r
  | [] => [[]]

/-- Split a string at the first occurrence of a character, returning the
parts before and after it (Go `strings.IndexRune` plus slicing). -/
def splitOnce (sep : Char) : Str → Option (Str × Str)
  | [] => none
  | c :: t =>
    if c = sep then some ([], t)
    else (splitOnce sep t).map (fun p => (c :: p.1, p.2))

/-- Go `strings.Split(s, sep)` for a one-character separator. -/
def splitAllCh (sep : Char) : Str → List Str
  | [] => [[]]
  | c :: t =>
    if c = sep then [] :: splitAllCh sep t
    else
      match splitAllCh sep t with
      | [] => [[c]]
      | h :: r => (c :: h) :: r

/-- Go `strings.SplitN(s, ".", 3)`. -/
def splitNDot3 (s : Str) : List Str :=
  match splitOnce '.' s with
  | none => [s]
  | some (a, r) =>
    match splitOnce '.' r with
    | none => [a, r]
    | some (b, r2) => [a, b, r2]

/-! ### The `blang/semver` library, embedded from its Go source -/

/-- `containsOnly(s, numbers)` in blang/semver. -/
def containsOnlyNumbers (s : Str) : Bool :=
  s.all (fun c => '0' ≤ c ∧ c ≤ '9')

/-- `containsOnly(s, alphanum)` in blang/semver (letters, digits, hyphen). -/
def containsOnlyAlphanum (s : Str) : Bool :=
  s.all (fun c =>
    ('0' ≤ c ∧ c ≤ '9') ∨ ('a' ≤ c ∧ c ≤ 'z') ∨ ('A' ≤ c ∧ c ≤ 'Z') ∨ c = '-')

/-- `hasLeadingZeroes` in blang/semver. -/
def hasLeadingZeroes (s : Str) : Bool :=
  decide (1 < s.length) && decide (s.take 1 = ['0'])

/-- Go `strconv.ParseUint(s, 10, 64)` on an all-digit string: fails on the
empty string and on overflow past `2^64 - 1`. -/
def parseUint64 (s : Str) : Option Nat :=
  if s = [] then none
  else
    let n := s.foldl (fun acc c => acc * 10 + (c.toNat - 48)) 0
    if n < 2 ^ 64 then some n else none

/-- A parsed prerelease identifier (`PRVersion` in blang/semver). -/
structure PRVersion where
  versionStr : Str
  versionNum : Nat
  isNum : Bool
deriving DecidableEq

/-- A parsed semantic version (`Version` in blang/semver); numeric
components are Go `uint64` values, hence always below `2^64`. -/
structure SemVersion where
  major : Nat
  minor : Nat
  patch : Nat
  pre : List PRVersion
  build : List Str
deriving DecidableEq

/-- The distinct failures of blang/semver's parser. -/
inductive SvErr where
  | emptyVersion
  | noElements
  | invalidCharacter (part : Str)
  | leadingZeroes (part : Str)
  | parseUintFail (part : Str)
  | emptyPrerelease
  | leadingZeroPrerelease (s : Str)
  | invalidCharPrerelease (s : Str)
  | emptyBuildMeta
  | invalidCharBuildMeta (s : Str)
deriving DecidableEq

/-- `NewPRVersion` in blang/semver. -/
def newPRVersion (s : Str) : Except SvErr PRVersion :=
  if s = [] then .error .emptyPrerelease
  else if containsOnlyNumbers s then
    if hasLeadingZeroes s then .error (.leadingZeroPrerelease s)
    else
      match parseUint64 s with
      | none => .error (.parseUintFail s)
      | some n => .ok ⟨[], n, true⟩
  else if containsOnlyAlphanum s then .ok ⟨s, 0, false⟩
  else .error (.invalidCharPrerelease s)

/-- Parse a list of prerelease identifiers, first error wins (the
prerelease loop of blang/semver's `Parse`). -/
def parsePreList : List Str → Except SvErr (List PRVersion)
  | [] => .ok []
  | s :: rest =>
    match newPRVersion s with
    | .error e => .error e
    | .ok p =>
      match parsePreList rest with
      | .error e => .error e
      | .ok ps => .ok (p :: ps)

/-- Validate the build-metadata identifiers (the build loop of
blang/semver's `Parse`). -/
def checkBuildList : List Str → Except SvErr (List Str)
  | [] => .ok []
  | s :: rest =>
    if s = [] then .error .emptyBuildMeta
    else if !containsOnlyAlphanum s then .error (.invalidCharBuildMeta s)
    else
      match checkBuildList rest with
      | .error e => .error e
      | .ok bs => .ok (s :: bs)

/-- Check and parse one numeric component (major / minor / patch): the
`containsOnly`, `hasLeadingZeroes` and `ParseUint` sequence of blang's
`Parse`. -/
def parseNumPart (part : Str) : Except SvErr Nat :=
  if !containsOnlyNumbers part then .error (.invalidCharacter part)
  else if hasLeadingZeroes part then .error (.leadingZeroes part)
  else
    match parseUint64 part with
    | none => .error (.parseUintFail part)
    | some n => .ok n

/-- `semver.Parse` (alias `semver.Make`) from blang/semver. -/
def semverMake (s : Str) : Except SvErr SemVersion :=
  if s = [] then .error .emptyVersion
  else
    match splitNDot3 s with
    | [p0, p1, p2] =>
      match parseNumPart p0 with
      | .error e => .error e
      | .ok major =>
        match parseNumPart p1 with
        | .error e => .error e
        | .ok minor =>
          let bsplit := splitOnce '+' p2
          let patchStr1 := match bsplit with
            | none => p2
            | some (bef, _) => bef
          let build : List Str := match bsplit with
            | none => []
            | some (_, aft) => splitAllCh '.' aft
          let psplit := splitOnce '-' patchStr1
          let patchStr := match psplit with
            | none => patchStr1
            | some (bef, _) => bef
          let prerelease : List Str := match psplit with
            | none => []
            | some (_, aft) => splitAllCh '.' aft
          match parseNumPart patchStr with
          | .error e => .error e
          | .ok patch =>
            match parsePreList prerelease with
            | .error e => .error e
            | .ok pre =>
              match checkBuildList build with
              | .error e => .error e
              | .ok bld => .ok ⟨major, minor, patch, pre, bld⟩
    | _ => .error .noElements

/-- `PRVersion.String` in blang/semver. -/
def prString (p : PRVersion) : Str :=
  if p.isNum then Nat.toDigits 10 p.versionNum else p.versionStr

/-- `Version.String` in blang/semver. -/
def svString (v : SemVersion) : Str :=
  Nat.toDigits 10 v.major ++ '.' :: Nat.toDigits 10 v.minor
    ++ '.' :: Nat.toDigits 10 v.patch
    ++ (if v.pre = [] then [] else '-' :: List.intercalate ['.'] (v.pre.map prString))
    ++ (if v.build = [] then [] else '+' :: List.intercalate ['.'] v.build)

/-- Go's lexicographic (byte-wise) string `<`, restricted to the ASCII
identifiers blang/semver compares. -/
def strLtGo : Str → Str → Bool
  | [], [] => false
  | [], _ :: _ => true
  | _ :: _, [] => false
  | a :: as, b :: bs =>
    if a.toNat < b.toNat then true
    else if b.toNat < a.toNat then false
    else strLtGo as bs

/-- `PRVersion.Compare` in blang/semver. -/
def prCompare (v o : PRVersion) : Int :=
  if v.isNum && !o.isNum then -1
  else if !v.isNum && o.isNum then 1
  else if v.isNum && o.isNum then
    if v.versionNum = o.versionNum then 0
    else if v.versionNum > o.versionNum then 1
    else -1
  else
    if v.versionStr = o.versionStr then 0
    else if strLtGo o.versionStr v.versionStr then 1
    else -1

/-- The prerelease-list comparison loop of `Version.Compare`. -/
def prListCompare : List PRVersion → List PRVersion → Int
  | [], [] => 0
  | [], _ :: _ => -1
  | _ :: _, [] => 1
  | a :: as, b :: bs =>
    let c := prCompare a b
    if c = 0 then prListCompare as bs else c

/-- `Version.Compare` in blang/semver (build metadata is ignored). -/
def svCompare (v o : SemVersion) : Int :=
  if v.major ≠ o.major then (if v.major > o.major then 1 else -1)
  else if v.minor ≠ o.minor then (if v.minor > o.minor then 1 else -1)
  else if v.patch ≠ o.patch then (if v.patch > o.patch then 1 else -1)
  else
    match v.pre, o.pre with
    | [], [] => 0
    | [], _ :: _ => 1
    | _ :: _, [] => -1
    | _ :: _, _ :: _ => prListCompare v.pre o.pre

/-- `Version.LT` in blang/semver. -/
def svLT (v o : SemVersion) : Bool :=
  svCompare v o = -1

/-! ### Data model of the repository (`pkg/auto` and its collaborators) -/

/-- `options.UpstreamOptions`: the fields checked by `checkUpstreamOptions`
(pointer fields are `Option`). -/
structure UpstreamOptions where
  URL : Str
  Commit : Option Str
  ChartRepoBranch : Option Str
  Subdirectory : Option Str
deriving DecidableEq

/-- `options.CRDChartOptions`: the fields checked by `parsePackageYaml`. -/
structure CRDChartOptions where
  TemplateDirectory : Str
  CRDDirectory : Str
  AddCRDValidationToMainChart : Bool
deriving DecidableEq

/-- An additional (e.g. CRD) sub-chart of a package: its upstream options
(the result of `Upstream.GetOptions()`) and optional CRD chart options. -/
structure AdditionalChart where
  Upstream : UpstreamOptions
  CRDChartOptions : Option CRDChartOptions
deriving DecidableEq

/-- The chart of a package.  `Upstream` holds the result of
`Upstream.GetOptions()`.  Modelled from the spec: `GetUpstreamVersion` is
"a resolver yielding the chart's current upstream version as a bare
semantic-version string"; its code is outside this package, so the
resolved string is carried as the field `upstreamVersion`. -/
structure Chart where
  WorkingDir : Str
  Upstream : UpstreamOptions
  upstreamVersion : Str
deriving DecidableEq

/-- `charts.Package`: the fields read or written by the auto-bump code. -/
structure Package where
  Auto : Bool
  Name : Str
  Version : Option SemVersion
  PackageVersion : Option Nat
  DoNotRelease : Bool
  Chart : Chart
  AdditionalCharts : List AdditionalChart
  AutoGeneratedBumpVersion : Option SemVersion
deriving DecidableEq

/-- The `Release` record: `ChartVersion` is the output field written by
`calculateNextVersion`. -/
structure Release where
  Chart : Str
  ReleaseYamlPath : Str
  ChartVersion : Str
deriving DecidableEq

/-- `lifecycle.Asset`: one entry of the per-chart version history. -/
structure Asset where
  Version : Str
deriving DecidableEq

/-- One rule of `lifecycle.VersionRules.Rules`. -/
structure VersionRule where
  Min : Str
deriving DecidableEq

/-- `lifecycle.VersionRules`: the branch line under bump and the rule
table (a Go map, modelled as a total function; a missing key yields the
zero value, as in Go). -/
structure VersionRules where
  BranchVersion : Str
  Rules : Str → VersionRule

/-- The `version` struct of `chart_bump_versions.go`: a textual semantic
version and its parsed form (`svr` is a Go pointer, nil until
`updateSemver` runs). -/
structure version where
  txt : Str
  svr : Option SemVersion
deriving DecidableEq

/-- The `versions` struct of `chart_bump_versions.go`. -/
structure versions where
  latest : version
  latestRepoPrefix : version
  toRelease : version
  toReleaseRepoPrefix : version
deriving DecidableEq

/-- The `Bump` struct: the fields used by the version calculator
(`assetsVersionsMap` is a Go map, modelled as a total function with the
empty slice as zero value). -/
structure Bump where
  targetChart : Str
  Pkg : Package
  releaseYaml : Release
  versionRules : VersionRules
  assetsVersionsMap : Str → List Asset
  versions : versions

/-- The sentinel error values of the `auto` package, plus a constructor
carrying a semver parse failure returned through `updateSemver` /
`semver.Make`. -/
inductive Err where
  | errChartLatestVersion
  | errChartUpstreamVersion
  | errChartUpstreamVersionWrong
  | errBumpVersion
  | errNoPackage
  | errMultiplePackages
  | errFalseAuto
  | errPackageName
  | errPackageChartVersion
  | errPackageVersion
  | errPackegeDoNotRelease
  | errChartWorkDir
  | errChartURL
  | errChartRepoCommit
  | errChartRepoBranch
  | errChartSubDir
  | errAdditionalChartWorkDir
  | errCRDWorkDir
  | errAdditionalChartCRDValidation
  | semverErr (e : SvErr)
deriving DecidableEq

/-- Outcome of a Go method that mutates a state of type `α` and returns
an `error`: normal return, error return (the state mutated so far is
kept, as the Go receiver keeps it), or a runtime panic. -/
inductive Res (α : Type) where
  | ok : α → Res α
  | err : Err → α → Res α
  | panicked : α → Res α
deriving DecidableEq

/-- Whether a `Res` is a panic. -/
def Res.isPanicked : Res α → Bool
  | .panicked _ => true
  | _ => false

/-- The normal-return value of a `Res`, if any. -/
def Res.okState : Res α → Option α
  | .ok a => some a
  | _ => none

/-- The error of a `Res`, if any. -/
def Res.errOf : Res α → Option Err
  | .err e _ => some e
  | _ => none

/-! ### The embedded functions of `chart_bump_versions.go` -/

/-- `(*version).updateSemver`: re-parse `txt` and store the result in
`svr`; on failure the struct is unchanged and the parse error returned. -/
def updateSemver (v : version) : Except SvErr version :=
  match semverMake v.txt with
  | .error e => .error e
  | .ok s => .ok { v with svr := some s }

/-- `(*version).updateTxt`: render `svr` back into `txt` (dereferences
the `svr` pointer; the code only calls it after `updateSemver`). -/
def updateTxt (v : version) (s : SemVersion) : version :=
  { v with txt := svString s }

/-- `parseRepoPrefixVersionIfAny` from `chart_bump_versions.go`: Go
`strings.Contains` then `strings.Split` on the marker `"+up"`, taking
elements 0 and 1 of the split. -/
def parseRepoPrefixVersionIfAny (unparsedVersion : Str) : Str × Str × Bool :=
  if containsUp unparsedVersion then
    let vs := splitUp unparsedVersion
    (vs.getD 0 [], vs.getD 1 [], true)
  else
    ([], unparsedVersion, false)

/-- `(*Bump).loadVersions`, as a function of the `Bump` state producing
the fresh `versions` value (the only field the method mutates).  The Go
slice index `[0]` on a missing/empty history panics. -/
def loadVersionsV (b : Bump) : Res versions :=
  let vs : versions := ⟨⟨[], none⟩, ⟨[], none⟩, ⟨[], none⟩, ⟨[], none⟩⟩
  match b.assetsVersionsMap b.targetChart with
  | [] => .panicked vs
  | asset :: _ =>
    let latestUnparsedVersion := asset.Version
    if latestUnparsedVersion = [] then .err .errChartLatestVersion vs
    else
      let parsed := parseRepoPrefixVersionIfAny latestUnparsedVersion
      let step1 : Res versions :=
        if parsed.2.2 then
          let vs := { vs with latestRepoPrefix := { vs.latestRepoPrefix with txt := parsed.1 } }
          match updateSemver vs.latestRepoPrefix with
          | .error e => .err (.semverErr e) vs
          | .ok lrp => .ok { vs with latestRepoPrefix := lrp }
        else .ok vs
      match step1 with
      | .err e s => .err e s
      | .panicked s => .panicked s
      | .ok vs =>
        let vs := { vs with latest := { vs.latest with txt := parsed.2.1 } }
        match updateSemver vs.latest with
        | .error e => .err (.semverErr e) vs
        | .ok latest =>
          let vs := { vs with latest := latest }
          let vs := { vs with toRelease := { vs.toRelease with txt := b.Pkg.Chart.upstreamVersion } }
          if vs.toRelease.txt = [] then .err .errChartUpstreamVersion vs
          else
            match updateSemver vs.toRelease with
            | .error e => .err (.semverErr e) vs
            | .ok toRelease =>
              let vs := { vs with toRelease := toRelease }
              if (parseRepoPrefixVersionIfAny vs.toRelease.txt).2.2 then
                .err .errChartUpstreamVersionWrong vs
              else
                match vs.toRelease.svr, vs.latest.svr with
                | some tr, some la =>
                  if svLT tr la then .err .errBumpVersion vs else .ok vs
                | _, _ => .panicked vs

/-- `(*Bump).loadVersions`: install the computed `versions` value into
the receiver. -/
def loadVersions (b : Bump) : Res Bump :=
  match loadVersionsV b with
  | .ok vs => .ok { b with versions := vs }
  | .err e vs => .err e { b with versions := vs }
  | .panicked vs => .panicked { b with versions := vs }

/-- `(*Bump).applyVersionRules`, as a function of the `Bump` state
producing the updated `versions` value (the only field the method
mutates).  Dereferencing a nil `svr` pointer panics; `uint64` increments
wrap modulo `2^64`. -/
def applyVersionRulesV (b : Bump) : Res versions :=
  let vs := b.versions
  let repoPrefixVersionRule := (b.versionRules.Rules b.versionRules.BranchVersion).Min
  match semverMake repoPrefixVersionRule with
  | .error e => .err (.semverErr e) vs
  | .ok repoPrefixSemverRule =>
    -- short-circuit `||`: the right operand dereferences latestRepoPrefix.svr
    if vs.latestRepoPrefix.txt = [] then
      let vs := { vs with toReleaseRepoPrefix := { vs.toReleaseRepoPrefix with txt := repoPrefixVersionRule } }
      match updateSemver vs.toReleaseRepoPrefix with
      | .error e => .err (.semverErr e) vs
      | .ok trp => .ok { vs with toReleaseRepoPrefix := trp }
    else
      match vs.latestRepoPrefix.svr with
      | none => .panicked vs
      | some lrpSvr =>
        if repoPrefixSemverRule.major ≠ lrpSvr.major then
          let vs := { vs with toReleaseRepoPrefix := { vs.toReleaseRepoPrefix with txt := repoPrefixVersionRule } }
          match updateSemver vs.toReleaseRepoPrefix with
          | .error e => .err (.semverErr e) vs
          | .ok trp => .ok { vs with toReleaseRepoPrefix := trp }
        else
          let vs := { vs with toReleaseRepoPrefix := { vs.toReleaseRepoPrefix with txt := vs.latestRepoPrefix.txt } }
          match updateSemver vs.toReleaseRepoPrefix with
          | .error e => .err (.semverErr e) vs
          | .ok trp0 =>
            let vs := { vs with toReleaseRepoPrefix := trp0 }
            match vs.toRelease.svr, vs.latest.svr, vs.toReleaseRepoPrefix.svr with
            | some tr, some la, some trpSvr =>
              let majorBump := decide (tr.major > la.major)
              let minorBump := decide (tr.minor > la.minor)
              let patchBump := decide (tr.patch > la.patch)
              let trp1 :=
                if patchBump && !majorBump && !minorBump then
                  { trpSvr with patch := (trpSvr.patch + 1) % 2 ^ 64 }
                else trpSvr
              let trp2 :=
                if minorBump || majorBump then
                  { trp1 with minor := (trp1.minor + 1) % 2 ^ 64, patch := 0 }
                else trp1
              .ok { vs with toReleaseRepoPrefix :=
                      updateTxt { vs.toReleaseRepoPrefix with svr := some trp2 } trp2 }
            | _, _, _ => .panicked vs

/-- `(*Bump).applyVersionRules`: install the computed `versions` value
into the receiver. -/
def applyVersionRules (b : Bump) : Res Bump :=
  match applyVersionRulesV b with
  | .ok vs => .ok { b with versions := vs }
  | .err e vs => .err e { b with versions := vs }
  | .panicked vs => .panicked { b with versions := vs }

/-- `(*Bump).calculateNextVersion`: load, apply rules, then compose
`"<toReleaseRepoPrefix>+up<toRelease>"` and parse it with
`semver.MustParse`, which panics on failure; only on success are
`releaseYaml.ChartVersion` and `Pkg.AutoGeneratedBumpVersion` written. -/
def calculateNextVersion (b : Bump) : Res Bump :=
  match loadVersions b with
  | .err e b1 => .err e b1
  | .panicked b1 => .panicked b1
  | .ok b1 =>
    match applyVersionRules b1 with
    | .err e b2 => .err e b2
    | .panicked b2 => .panicked b2
    | .ok b2 =>
      let targetVersion := b2.versions.toReleaseRepoPrefix.txt ++ '+' :: 'u' :: 'p' :: b2.versions.toRelease.txt
      match semverMake targetVersion with
      | .error _ => .panicked b2
      | .ok targetSemver =>
        .ok { b2 with
                releaseYaml := { b2.releaseYaml with ChartVersion := targetVersion },
                Pkg := { b2.Pkg with AutoGeneratedBumpVersion := some targetSemver } }

/-! ### The embedded validator (`parsePackageYaml`, `checkUpstreamOptions`) -/

/-- `checkUpstreamOptions` from the validator file: the shared upstream
descriptor check, first violated condition wins. -/
def checkUpstreamOptions (options : UpstreamOptions) : Option Err :=
  if !List.isSuffixOf ['.', 'g', 'i', 't'] options.URL then some .errChartURL
  else if options.Commit.isSome then some .errChartRepoCommit
  else if options.ChartRepoBranch.isNone then some .errChartRepoBranch
  else if options.Subdirectory.isNone then some .errChartSubDir
  else none

/-- The `for` loop of `parsePackageYaml` over the additional charts: for
each chart its upstream check runs, then (when CRD options are declared)
its CRD checks, before the next chart is visited. -/
def checkAdditionalCharts : List AdditionalChart → Option Err
  | [] => none
  | ac :: rest =>
    match checkUpstreamOptions ac.Upstream with
    | some e => some e
    | none =>
      match ac.CRDChartOptions with
      | some crd =>
        if crd.TemplateDirectory = [] then some .errAdditionalChartWorkDir
        else if crd.CRDDirectory = [] then some .errCRDWorkDir
        else if crd.AddCRDValidationToMainChart = false then some .errAdditionalChartCRDValidation
        else checkAdditionalCharts rest
      | none => checkAdditionalCharts rest

/-- `(*Bump).parsePackageYaml`: the package-eligibility validator.  On
success the single package is the one assigned to `b.Pkg`. -/
def parsePackageYaml (packages : List Package) : Except Err Package :=
  match packages with
  | [] => .error .errNoPackage
  | _ :: _ :: _ => .error .errMultiplePackages
  | [pkg] =>
    if pkg.Auto = false then .error .errFalseAuto
    else if pkg.Name = [] then .error .errPackageName
    else if pkg.Version.isSome then .error .errPackageChartVersion
    else if pkg.PackageVersion.isSome then .error .errPackageVersion
    else if pkg.DoNotRelease = true then .error .errPackegeDoNotRelease
    else if pkg.Chart.WorkingDir = [] then .error .errChartWorkDir
    else
      match checkUpstreamOptions pkg.Chart.Upstream with
      | some e => .error e
      | none =>
        match checkAdditionalCharts pkg.AdditionalCharts with
        | some e => .error e
        | none => .ok pkg

/-! ### Derived definitions, fixtures and the verification theorems -/

/-- The continuation-case bump arithmetic of `applyVersionRules` on a parsed
repo-prefix, as a function of the carried-forward prefix and the parsed
`toRelease` / `latest` versions (uint64 increments wrap modulo `2^64`). -/
def contBump (lrp tr la : SemVersion) : SemVersion :=
  let majorBump := decide (tr.major > la.major)
  let minorBump := decide (tr.minor > la.minor)
  let patchBump := decide (tr.patch > la.patch)
  let trp1 :=
    if patchBump && !majorBump && !minorBump then
      { lrp with patch := (lrp.patch + 1) % 2 ^ 64 }
    else lrp
  if minorBump || majorBump then
    { trp1 with minor := (trp1.minor + 1) % 2 ^ 64, patch := 0 }
  else trp1

/-- Run an ordered list of (violated?, error) checks: the first violated
check's error wins, success otherwise. -/
def firstFailure : List (Bool × Err) → Option Err
  | [] => none
  | c :: rest => if c.1 then some c.2 else firstFailure rest

/-- The shared upstream-descriptor checks, in the code's (and spec's) order. -/
def upstreamChecksSpec (o : UpstreamOptions) : List (Bool × Err) :=
  [(!List.isSuffixOf ['.', 'g', 'i', 't'] o.URL, .errChartURL),
   (o.Commit.isSome, .errChartRepoCommit),
   (o.ChartRepoBranch.isNone, .errChartRepoBranch),
   (o.Subdirectory.isNone, .errChartSubDir)]

/-- The CRD-option checks of one additional chart, in the code's order
(empty when the chart declares no CRD options). -/
def crdChecksSpec (ac : AdditionalChart) : List (Bool × Err) :=
  match ac.CRDChartOptions with
  | none => []
  | some crd =>
    [(decide (crd.TemplateDirectory = []), .errAdditionalChartWorkDir),
     (decide (crd.CRDDirectory = []), .errCRDWorkDir),
     (!crd.AddCRDValidationToMainChart, .errAdditionalChartCRDValidation)]

/-- The package root-level checks, in the code's (and spec's) order. -/
def rootChecksSpec (pkg : Package) : List (Bool × Err) :=
  [(!pkg.Auto, .errFalseAuto),
   (decide (pkg.Name = []), .errPackageName),
   (pkg.Version.isSome, .errPackageChartVersion),
   (pkg.PackageVersion.isSome, .errPackageVersion),
   (pkg.DoNotRelease, .errPackegeDoNotRelease),
   (decide (pkg.Chart.WorkingDir = []), .errChartWorkDir)]

/-- The check order as the spec's words state it: root checks, the primary
upstream check, then the upstream check of EVERY additional chart, and only
then the CRD checks of each additional chart. -/
def specOrderChecks (pkg : Package) : List (Bool × Err) :=
  rootChecksSpec pkg ++ upstreamChecksSpec pkg.Chart.Upstream
    ++ pkg.AdditionalCharts.flatMap (fun ac => upstreamChecksSpec ac.Upstream)
    ++ pkg.AdditionalCharts.flatMap crdChecksSpec

/-- The check order the code actually evaluates: root checks, the primary
upstream check, then PER additional chart its upstream check immediately
followed by its own CRD checks. -/
def codeOrderChecks (pkg : Package) : List (Bool × Err) :=
  rootChecksSpec pkg ++ upstreamChecksSpec pkg.Chart.Upstream
    ++ pkg.AdditionalCharts.flatMap (fun ac => upstreamChecksSpec ac.Upstream ++ crdChecksSpec ac)

/-- A well-formed upstream descriptor (git URL, no commit pin, branch and
subdirectory present). -/
def okUpstream : UpstreamOptions := ⟨['r', '.', 'g', 'i', 't'], none, some ['b'], some ['s']⟩

/-- An upstream descriptor whose URL lacks the `.git` suffix. -/
def noGitUpstream : UpstreamOptions := ⟨['r'], none, some ['b'], some ['s']⟩

/-- A package passing every validator check, with the given resolved
upstream version string. -/
def basePkg (upV : Str) : Package :=
  ⟨true, ['n'], none, none, false, ⟨['w'], okUpstream, upV⟩, [], none⟩

/-- The freshly initialised `versions` value of `loadVersions`. -/
def emptyVersions : versions := ⟨⟨[], none⟩, ⟨[], none⟩, ⟨[], none⟩, ⟨[], none⟩⟩

/-- A `Bump` state over one chart with the given version history, resolved
upstream version, branch rule and current `versions` value. -/
def baseBump (history : List Asset) (upV ruleMin : Str) (vs : versions) : Bump :=
  { targetChart := ['c'], Pkg := basePkg upV,
    releaseYaml := ⟨['c'], ['p'], ['o']⟩,
    versionRules := ⟨['x'], fun _ => ⟨ruleMin⟩⟩,
    assetsVersionsMap := fun _ => history,
    versions := vs }

/-- Loaded versions for the spec's continuation example
`latest = "104.2.0+up1.2.3"`, `toRelease = "1.2.4"`. -/
def vsPatchEx : versions :=
  ⟨⟨"1.2.3".toList, some ⟨1, 2, 3, [], []⟩⟩, ⟨"104.2.0".toList, some ⟨104, 2, 0, [], []⟩⟩,
   ⟨"1.2.4".toList, some ⟨1, 2, 4, [], []⟩⟩, ⟨[], none⟩⟩

/-- The spec's patch-only continuation example with branch rule `104.0.0`. -/
def patchBumpInput : Bump :=
  baseBump [⟨"104.2.0+up1.2.3".toList⟩] "1.2.4".toList "104.0.0".toList vsPatchEx

/-- The spec's branch-line-transition example: prefix `104.2.0`, rule `105.0.0`. -/
def transitionInput : Bump :=
  baseBump [⟨"104.2.0+up1.2.3".toList⟩] "1.2.4".toList "105.0.0".toList vsPatchEx

/-- An input whose upstream version `1.2.2` regresses below the latest
published `1.2.3`. -/
def regressionInput : Bump :=
  baseBump [⟨"104.2.0+up1.2.3".toList⟩] "1.2.2".toList "104.0.0".toList emptyVersions

/-- The `versions` state at which `loadVersions` reports the regression. -/
def regressionErrVersions : versions :=
  ⟨⟨"1.2.3".toList, some ⟨1, 2, 3, [], []⟩⟩, ⟨"104.2.0".toList, some ⟨104, 2, 0, [], []⟩⟩,
   ⟨"1.2.2".toList, some ⟨1, 2, 2, [], []⟩⟩, ⟨[], none⟩⟩

/-- An input whose version history carries an empty latest version string. -/
def emptyLatestInput : Bump :=
  baseBump [⟨[]⟩] "1.2.3".toList "104.0.0".toList emptyVersions

/-- An input whose upstream version `1.0.1+abc` carries build metadata: it
passes Steps A and B, but the Step C composition
`105.0.0+up1.0.1+abc` is not a valid semantic version. -/
def buildMetaInput : Bump :=
  baseBump [⟨"1.0.0".toList⟩] "1.0.1+abc".toList "105.0.0".toList emptyVersions

/-- The `versions` state after Step A on `buildMetaInput`. -/
def buildMetaLoaded : versions :=
  ⟨⟨"1.0.0".toList, some ⟨1, 0, 0, [], []⟩⟩, ⟨[], none⟩,
   ⟨"1.0.1+abc".toList, some ⟨1, 0, 1, [], ["abc".toList]⟩⟩, ⟨[], none⟩⟩

/-- The `versions` state after Step B on `buildMetaInput`. -/
def buildMetaApplied : versions :=
  ⟨⟨"1.0.0".toList, some ⟨1, 0, 0, [], []⟩⟩, ⟨[], none⟩,
   ⟨"1.0.1+abc".toList, some ⟨1, 0, 1, [], ["abc".toList]⟩⟩,
   ⟨"105.0.0".toList, some ⟨105, 0, 0, [], []⟩⟩⟩

/-- A continuation input whose repo-prefix patch component is the maximal
uint64 value `2^64 - 1`, with a patch-only upstream bump. -/
def overflowPatchInput : Bump :=
  baseBump [⟨"104.2.18446744073709551615+up1.2.3".toList⟩] "1.2.4".toList
    "104.0.0".toList emptyVersions

/-- Loaded versions with `toRelease` equal to `latest` (`1.2.3` both). -/
def vsEqEx : versions :=
  ⟨⟨"1.2.3".toList, some ⟨1, 2, 3, [], []⟩⟩, ⟨"104.2.0".toList, some ⟨104, 2, 0, [], []⟩⟩,
   ⟨"1.2.3".toList, some ⟨1, 2, 3, [], []⟩⟩, ⟨[], none⟩⟩

/-- A continuation input whose upstream version equals the latest bare
version exactly. -/
def equalVersionsInput : Bump :=
  baseBump [⟨"104.2.0+up1.2.3".toList⟩] "1.2.3".toList "104.0.0".toList vsEqEx

/-- The equal-versions input with the `versions` state not yet loaded. -/
def equalVersionsPipelineInput : Bump :=
  baseBump [⟨"104.2.0+up1.2.3".toList⟩] "1.2.3".toList "104.0.0".toList emptyVersions

/-- A continuation input whose repo-prefix minor component is the maximal
uint64 value `2^64 - 1`, with a minor upstream bump. -/
def overflowMinorInput : Bump :=
  baseBump [⟨"7.18446744073709551615.3+up1.2.3".toList⟩] "1.3.0".toList
    "7.0.0".toList emptyVersions

/-- An additional chart with a valid upstream but an empty CRD template
directory. -/
def badCRDChart : AdditionalChart := ⟨okUpstream, some ⟨[], ['d'], true⟩⟩

/-- An additional chart whose upstream URL lacks the `.git` suffix. -/
def badURLChart : AdditionalChart := ⟨noGitUpstream, none⟩

/-- A package whose FIRST additional chart violates only a CRD check and
whose SECOND violates the upstream URL check: the two candidate check
orders disagree on it. -/
def interleavedPkg : Package :=
  ⟨true, ['n'], none, none, false, ⟨['w'], okUpstream, "1.0.0".toList⟩,
   [badCRDChart, badURLChart], none⟩

/-- A string with the marker `"+up"` inserted always contains the marker. -/
theorem containsUp_append_marker (p v : Str) :
    containsUp (p ++ '+' :: 'u' :: 'p' :: v) = true := by
  induction p with
  | nil => rfl
  | cons c p ih =>
    rw [List.cons_append, containsUp.eq_def]
    split
    · rfl
    · simp_all
    · simp_all

/-- Dropping the head of a marker-free string keeps it marker-free. -/
theorem containsUp_cons_false {c : Char} {t : Str}
    (h : containsUp (c :: t) = false) : containsUp t = false := by
  rw [containsUp.eq_def] at h
  split at h
  · exact absurd h (by simp)
  · simp_all
  · simp_all

/-- Go `strings.Split` on a marker-free string returns the string whole. -/
theorem splitUp_no_marker (s : Str) (h : containsUp s = false) :
    splitUp s = [s] := by
  induction s using splitUp.induct with
  | case1 tail ih => exact absurd h (by simp [containsUp])
  | case2 head rest hne hrest ih =>
    rw [ih (containsUp_cons_false h)] at hrest
    exact absurd hrest (by simp)
  | case3 head rest hne h' r hrest ih =>
    have hr : splitUp rest = [rest] := ih (containsUp_cons_false h)
    rw [splitUp.eq_def]
    split
    · rename_i tail heq
      rw [heq] at h
      exact absurd h (by simp [containsUp])
    · simp_all
    · simp_all
  | case4 => rfl

/-- Go `strings.Split` around an inserted marker: a marker-free prefix
becomes the first element, the split of the remainder follows. -/
theorem splitUp_append_marker (p v : Str) (hp : containsUp p = false) :
    splitUp (p ++ '+' :: 'u' :: 'p' :: v) = p :: splitUp v := by
  induction p using splitUp.induct with
  | case1 tail ih => exact absurd hp (by simp [containsUp])
  | case2 head rest hne hrest ih =>
    have hr := ih (containsUp_cons_false hp)
    rw [List.cons_append, splitUp.eq_def]
    split
    · rename_i tail heq
      -- head :: (rest ++ marker ++ v) = '+' :: 'u' :: 'p' :: tail
      match rest, heq with
      | [], heq => injection heq with h1 h2; injection h2 with h2 _; exact absurd h2 (by decide)
      | [a], heq =>
        injection heq with h1 h2; injection h2 with h2 h3; injection h3 with h3 _
        exact absurd h3 (by decide)
      | a :: b :: rest2, heq =>
        injection heq with h1 h2; injection h2 with h2 h3; injection h3 with h3 _
        exact hne rest2 h1 (by rw [h2, h3]) |>.elim
    · simp_all
    · simp_all
  | case3 head rest hne h' r hrest ih =>
    have hr := ih (containsUp_cons_false hp)
    rw [List.cons_append, splitUp.eq_def]
    split
    · rename_i tail heq
      match rest, heq with
      | [], heq => injection heq with h1 h2; injection h2 with h2 _; exact absurd h2 (by decide)
      | [a], heq =>
        injection heq with h1 h2; injection h2 with h2 h3; injection h3 with h3 _
        exact absurd h3 (by decide)
      | a :: b :: rest2, heq =>
        injection heq with h1 h2; injection h2 with h2 h3; injection h3 with h3 _
        exact hne rest2 h1 (by rw [h2, h3]) |>.elim
    · simp_all
    · simp_all
  | case4 => rfl

/-- Parsing `p ++ "+up" ++ v` with `p`, `v` marker-free yields `(p, v, true)`. -/
theorem parse_after_marker (p v : Str) (hp : containsUp p = false) (hv : containsUp v = false) :
    parseRepoPrefixVersionIfAny (p ++ '+' :: 'u' :: 'p' :: v) = (p, v, true) := by
  unfold parseRepoPrefixVersionIfAny
  rw [containsUp_append_marker, if_pos rfl, splitUp_append_marker p v hp, splitUp_no_marker v hv]
  rfl

/-- With two inserted markers, the returned version part is the segment
between the first and the second marker, not the whole remainder. -/
theorem parse_two_markers (p v w : Str) (hp : containsUp p = false) (hv : containsUp v = false) :
    parseRepoPrefixVersionIfAny (p ++ '+' :: 'u' :: 'p' :: (v ++ '+' :: 'u' :: 'p' :: w)) = (p, v, true) := by
  unfold parseRepoPrefixVersionIfAny
  rw [containsUp_append_marker, if_pos rfl, splitUp_append_marker p _ hp,
    splitUp_append_marker v w hv]
  rfl

/-- Parsing a marker-free string returns it unchanged with `found = false`. -/
theorem parse_no_marker (s : Str) (h : containsUp s = false) :
    parseRepoPrefixVersionIfAny s = ([], s, false) := by
  unfold parseRepoPrefixVersionIfAny
  rw [h]
  rfl

/-- Master lemma: in the continuation case (prefix present, same major as
the rule, all parses synchronised) `applyVersionRules` carries the prefix
forward and rewrites `toReleaseRepoPrefix` with `contBump`. -/
theorem applyVersionRulesV_continuation (b : Bump) (rule lrp tr la : SemVersion)
    (hrule : semverMake (b.versionRules.Rules b.versionRules.BranchVersion).Min = .ok rule)
    (htxt : ¬ b.versions.latestRepoPrefix.txt = [])
    (hsvr : b.versions.latestRepoPrefix.svr = some lrp)
    (hsync : semverMake b.versions.latestRepoPrefix.txt = .ok lrp)
    (hmaj : rule.major = lrp.major)
    (htr : b.versions.toRelease.svr = some tr)
    (hla : b.versions.latest.svr = some la) :
    applyVersionRulesV b = .ok { b.versions with toReleaseRepoPrefix :=
      ⟨svString (contBump lrp tr la), some (contBump lrp tr la)⟩ } := by
  simp only [applyVersionRulesV, hrule]
  rw [if_neg htxt]
  simp only [hsvr]
  rw [if_neg (fun h => h hmaj)]
  simp only [updateSemver, updateTxt, hsync, htr, hla, contBump]

/-- Master lemma: in the branch-line-transition case `applyVersionRules`
adopts the rule's version string verbatim. -/
theorem applyVersionRulesV_transition (b : Bump) (rule : SemVersion)
    (hrule : semverMake (b.versionRules.Rules b.versionRules.BranchVersion).Min = .ok rule)
    (hcase : b.versions.latestRepoPrefix.txt = [] ∨
      ∃ lrp, b.versions.latestRepoPrefix.svr = some lrp ∧ rule.major ≠ lrp.major) :
    applyVersionRulesV b = .ok { b.versions with toReleaseRepoPrefix :=
      ⟨(b.versionRules.Rules b.versionRules.BranchVersion).Min, some rule⟩ } := by
  rcases hcase with h | ⟨lrp, hsvr, hne⟩
  · simp only [applyVersionRulesV, hrule]
    rw [if_pos h]
    simp only [updateSemver, hrule]
  · simp only [applyVersionRulesV, hrule]
    by_cases htxt : b.versions.latestRepoPrefix.txt = []
    · rw [if_pos htxt]
      simp only [updateSemver, hrule]
    · rw [if_neg htxt]
      simp only [hsvr]
      rw [if_pos hne]
      simp only [updateSemver, hrule]

/-- A successful `loadVersions` run never keeps a `toRelease` below `latest`. -/
theorem loadVersionsV_ok_no_regression (b : Bump) (vs : versions) (tr la : SemVersion)
    (h : loadVersionsV b = .ok vs)
    (htr : vs.toRelease.svr = some tr) (hla : vs.latest.svr = some la) :
    svLT tr la = false := by
  simp only [loadVersionsV] at h
  iterate 14 all_goals (try split at h)
  all_goals (try injection h)
  all_goals (try subst vs)
  all_goals simp_all

/-- A `loadVersions` run ending in the regression error recorded a
`toRelease` strictly below `latest`. -/
theorem loadVersionsV_err_regression (b : Bump) (vs : versions) (tr la : SemVersion)
    (h : loadVersionsV b = .err .errBumpVersion vs)
    (htr : vs.toRelease.svr = some tr) (hla : vs.latest.svr = some la) :
    svLT tr la = true := by
  simp only [loadVersionsV] at h
  iterate 14 all_goals (try split at h)
  all_goals (try injection h)
  all_goals (try subst vs)
  all_goals (try simp_all)
  rename_i heq a_eq
  split at heq
  · split at heq <;> simp_all
  · simp_all

/-- A Step A error propagates unchanged out of `calculateNextVersion`. -/
theorem calculateNextVersion_err_load (b : Bump) (e : Err) (vs : versions)
    (h : loadVersionsV b = .err e vs) :
    calculateNextVersion b = .err e { b with versions := vs } := by
  simp only [calculateNextVersion, loadVersions, h]

/-- A Step B error propagates unchanged out of `calculateNextVersion`. -/
theorem calculateNextVersion_err_apply (b : Bump) (vs : versions) (e : Err) (vs2 : versions)
    (hl : loadVersionsV b = .ok vs)
    (ha : applyVersionRulesV { b with versions := vs } = .err e vs2) :
    calculateNextVersion b = .err e { b with versions := vs2 } := by
  simp only [calculateNextVersion, loadVersions, applyVersionRules, hl, ha]

/-- Any error return of `calculateNextVersion` leaves the two output
fields exactly as they were on entry. -/
theorem calculateNextVersion_err_preserves (b : Bump) (e : Err) (b2 : Bump)
    (h : calculateNextVersion b = .err e b2) :
    b2.releaseYaml.ChartVersion = b.releaseYaml.ChartVersion ∧
    b2.Pkg.AutoGeneratedBumpVersion = b.Pkg.AutoGeneratedBumpVersion := by
  cases hl : loadVersionsV b with
  | err e2 vs =>
    rw [calculateNextVersion_err_load b e2 vs hl] at h
    injection h with h1 h2
    subst h2
    exact ⟨rfl, rfl⟩
  | panicked vs =>
    simp only [calculateNextVersion, loadVersions, hl] at h
    injection h
  | ok vs =>
    cases ha : applyVersionRulesV { b with versions := vs } with
    | err e2 vs2 =>
      rw [calculateNextVersion_err_apply b vs e2 vs2 hl ha] at h
      injection h with h1 h2
      subst h2
      exact ⟨rfl, rfl⟩
    | panicked vs2 =>
      simp only [calculateNextVersion, loadVersions, applyVersionRules, hl, ha] at h
      injection h
    | ok vs2 =>
      simp only [calculateNextVersion, loadVersions, applyVersionRules, hl, ha] at h
      split at h <;> simp_all

/-- `PRVersion.Compare` is reflexive. -/
theorem prCompare_self (p : PRVersion) : prCompare p p = 0 := by
  cases hp : p.isNum <;> simp [prCompare, hp]

/-- The prerelease-list comparison is reflexive. -/
theorem prListCompare_self (l : List PRVersion) : prListCompare l l = 0 := by
  induction l with
  | nil => rfl
  | cons a t ih => simp [prListCompare, prCompare_self, ih]

/-- `Version.Compare` is reflexive. -/
theorem svCompare_self (v : SemVersion) : svCompare v v = 0 := by
  unfold svCompare
  simp only [ne_eq, not_true_eq_false, if_false, ite_self]
  cases h : v.pre with
  | nil => simp
  | cons a t => simp [prListCompare_self, ← h]

/-- `Version.LT` is irreflexive. -/
theorem svLT_self (v : SemVersion) : svLT v v = false := by
  simp [svLT, svCompare_self]

/-- Equal major and minor with a strictly larger patch compares as greater. -/
theorem svCompare_of_patch_gt (a b : SemVersion) (hM : a.major = b.major)
    (hm : a.minor = b.minor) (hp : b.patch < a.patch) : svCompare a b = 1 := by
  unfold svCompare
  rw [if_neg (by simp [hM]), if_neg (by simp [hm]), if_pos (by omega)]
  simp [Nat.lt_iff_add_one_le] at hp ⊢
  omega

/-- Equal major with a strictly larger minor compares as greater. -/
theorem svCompare_of_minor_gt (a b : SemVersion) (hM : a.major = b.major)
    (hm : b.minor < a.minor) : svCompare a b = 1 := by
  unfold svCompare
  rw [if_neg (by simp [hM]), if_pos (by omega)]
  simp
  omega

/-- A version comparing as greater is not `LT`. -/
theorem svLT_eq_false_of_compare_one (a b : SemVersion) (h : svCompare a b = 1) :
    svLT a b = false := by
  have hne : ¬ (svCompare a b = -1) := by rw [h]; decide
  exact decide_eq_false hne

/-- `firstFailure` over a concatenation: the left list is consulted first. -/
theorem firstFailure_append (l1 l2 : List (Bool × Err)) :
    firstFailure (l1 ++ l2) =
      (match firstFailure l1 with
       | some e => some e
       | none => firstFailure l2) := by
  induction l1 with
  | nil => rfl
  | cons c rest ih =>
    by_cases h : c.1 = true
    · simp [firstFailure, h]
    · simp [firstFailure, h, ih]

/-- `checkUpstreamOptions` is the first failure of its ordered check list. -/
theorem checkUpstreamOptions_eq (o : UpstreamOptions) :
    checkUpstreamOptions o = firstFailure (upstreamChecksSpec o) := rfl

/-- The additional-charts loop is the first failure of the interleaved
(upstream then CRD, per chart) check list. -/
theorem checkAdditionalCharts_eq (l : List AdditionalChart) :
    checkAdditionalCharts l =
      firstFailure (l.flatMap (fun ac => upstreamChecksSpec ac.Upstream ++ crdChecksSpec ac)) := by
  induction l with
  | nil => rfl
  | cons ac rest ih =>
    rw [List.flatMap_cons, firstFailure_append, firstFailure_append]
    rw [← checkUpstreamOptions_eq]
    unfold checkAdditionalCharts
    cases hu : checkUpstreamOptions ac.Upstream with
    | some e => rfl
    | none =>
      cases hc : ac.CRDChartOptions with
      | none => simp [crdChecksSpec, hc, firstFailure, ih]
      | some crd =>
        by_cases h1 : crd.TemplateDirectory = []
        · simp [crdChecksSpec, hc, firstFailure, h1]
        · by_cases h2 : crd.CRDDirectory = []
          · simp [crdChecksSpec, hc, firstFailure, h1, h2]
          · by_cases h3 : crd.AddCRDValidationToMainChart = false
            · simp [crdChecksSpec, hc, firstFailure, h1, h2, h3]
            · simp [crdChecksSpec, hc, firstFailure, h1, h2, h3, ih]

/-- C1: in every continuation computation (latest repo-prefix present and
synchronised, its major equal to the branch rule's), `applyVersionRules`
carries the prefix forward and: if only the patch of `toRelease` increased
over `latest`, it increments the prefix's patch by one modulo `2^64`
(uint64 wrap); if the minor or major increased, it increments the prefix's
minor by one modulo `2^64` and resets its patch to zero. -/
theorem c1_continuation_bump (b : Bump) (rule lrp tr la : SemVersion)
    (hrule : semverMake (b.versionRules.Rules b.versionRules.BranchVersion).Min = .ok rule)
    (htxt : ¬ b.versions.latestRepoPrefix.txt = [])
    (hsvr : b.versions.latestRepoPrefix.svr = some lrp)
    (hsync : semverMake b.versions.latestRepoPrefix.txt = .ok lrp)
    (hmaj : rule.major = lrp.major)
    (htr : b.versions.toRelease.svr = some tr)
    (hla : b.versions.latest.svr = some la) :
    (tr.patch > la.patch → ¬ tr.major > la.major → ¬ tr.minor > la.minor →
       applyVersionRules b = .ok { b with versions := { b.versions with toReleaseRepoPrefix :=
         ⟨svString { lrp with patch := (lrp.patch + 1) % 2 ^ 64 },
          some { lrp with patch := (lrp.patch + 1) % 2 ^ 64 }⟩ } }) ∧
    ((tr.minor > la.minor ∨ tr.major > la.major) →
       applyVersionRules b = .ok { b with versions := { b.versions with toReleaseRepoPrefix :=
         ⟨svString { lrp with minor := (lrp.minor + 1) % 2 ^ 64, patch := 0 },
          some { lrp with minor := (lrp.minor + 1) % 2 ^ 64, patch := 0 }⟩ } }) := by
  have hm := applyVersionRulesV_continuation b rule lrp tr la hrule htxt hsvr hsync hmaj htr hla
  constructor
  · intro hP hM hm2
    have hc : contBump lrp tr la = { lrp with patch := (lrp.patch + 1) % 2 ^ 64 } := by
      simp [contBump, decide_eq_true hP, decide_eq_false hM, decide_eq_false hm2]
    unfold applyVersionRules
    rw [hm, hc]
  · intro hOr
    have hc : contBump lrp tr la = { lrp with minor := (lrp.minor + 1) % 2 ^ 64, patch := 0 } := by
      rcases hOr with h | h <;> simp [contBump, decide_eq_true h]
    unfold applyVersionRules
    rw [hm, hc]

/-- C1 witness: the spec's example `latest = "104.2.0+up1.2.3"`,
`toRelease = "1.2.4"`, rule major `104` yields repo-prefix `104.2.1`. -/
theorem c1_witness :
    applyVersionRules patchBumpInput = .ok { patchBumpInput with versions :=
      { patchBumpInput.versions with toReleaseRepoPrefix :=
        ⟨"104.2.1".toList, some ⟨104, 2, 1, [], []⟩⟩ } } :=
  (c1_continuation_bump patchBumpInput ⟨104, 0, 0, [], []⟩ ⟨104, 2, 0, [], []⟩
      ⟨1, 2, 4, [], []⟩ ⟨1, 2, 3, [], []⟩ rfl (by decide) rfl rfl rfl rfl rfl).1
    (by decide) (by decide) (by decide)

/-- C1 counterexample: with the latest repo-prefix patch at `2^64 - 1`, a
patch-only bump wraps the patch to `0` instead of incrementing it by one
(`2^64 - 1 + 1` is not `0`), so the unqualified claim fails. -/
theorem c1_counterexample :
    (Res.okState (calculateNextVersion overflowPatchInput)).map
        (fun b2 => b2.versions.toReleaseRepoPrefix.svr) = some (some ⟨104, 2, 0, [], []⟩) ∧
    (18446744073709551615 + 1 : Nat) ≠ 0 := by
  constructor
  · rfl
  · decide

/-- C2: whenever no prior repo-prefix exists or its major differs from the
branch rule's, `applyVersionRules` adopts the rule's version string
verbatim as the new repo-prefix, with no further arithmetic and with no
hypothesis at all on the upstream delta between `latest` and `toRelease`. -/
theorem c2_branch_transition (b : Bump) (rule : SemVersion)
    (hrule : semverMake (b.versionRules.Rules b.versionRules.BranchVersion).Min = .ok rule)
    (hcase : b.versions.latestRepoPrefix.txt = [] ∨
      ∃ lrp, b.versions.latestRepoPrefix.svr = some lrp ∧ rule.major ≠ lrp.major) :
    applyVersionRules b = .ok { b with versions := { b.versions with toReleaseRepoPrefix :=
      ⟨(b.versionRules.Rules b.versionRules.BranchVersion).Min, some rule⟩ } } := by
  unfold applyVersionRules
  rw [applyVersionRulesV_transition b rule hrule hcase]

/-- C2 witness: latest repo-prefix `104.2.0` with rule `105.0.0` gives
repo-prefix exactly `105.0.0`. -/
theorem c2_witness :
    applyVersionRules transitionInput = .ok { transitionInput with versions :=
      { transitionInput.versions with toReleaseRepoPrefix :=
        ⟨"105.0.0".toList, some ⟨105, 0, 0, [], []⟩⟩ } } :=
  c2_branch_transition transitionInput ⟨105, 0, 0, [], []⟩ rfl
    (Or.inr ⟨⟨104, 2, 0, [], []⟩, rfl, by decide⟩)

/-- C3: a successful `loadVersions` implies the bare `toRelease` is not
below the bare `latest`; the regression error implies it is; and among
runs passing all earlier checks (ending ok or in the regression error),
the regression error occurs exactly when `toRelease < latest`. -/
theorem c3_regression_guard (b b2 : Bump) (tr la : SemVersion)
    (htr : b2.versions.toRelease.svr = some tr) (hla : b2.versions.latest.svr = some la) :
    (loadVersions b = .ok b2 → svLT tr la = false) ∧
    (loadVersions b = .err .errBumpVersion b2 → svLT tr la = true) ∧
    ((loadVersions b = .ok b2 ∨ loadVersions b = .err .errBumpVersion b2) →
      (svLT tr la = true ↔ loadVersions b = .err .errBumpVersion b2)) := by
  have hok : loadVersions b = .ok b2 → svLT tr la = false := by
    intro h
    unfold loadVersions at h
    cases hv : loadVersionsV b with
    | ok vs =>
      rw [hv] at h
      injection h with h2
      subst h2
      exact loadVersionsV_ok_no_regression b vs tr la hv htr hla
    | err e vs => rw [hv] at h; injection h
    | panicked vs => rw [hv] at h; injection h
  have herr : loadVersions b = .err .errBumpVersion b2 → svLT tr la = true := by
    intro h
    unfold loadVersions at h
    cases hv : loadVersionsV b with
    | ok vs => rw [hv] at h; injection h
    | err e vs =>
      rw [hv] at h
      injection h with h1 h2
      subst h1
      subst h2
      exact loadVersionsV_err_regression b vs tr la hv htr hla
    | panicked vs => rw [hv] at h; injection h
  refine ⟨hok, herr, fun hor => ⟨fun hlt => ?_, fun h => herr h⟩⟩
  rcases hor with h | h
  · exact absurd hlt (by simp [hok h])
  · exact h

/-- C3 witness: `toRelease = 1.2.2` against `latest = 1.2.3` ends in the
regression error, and indeed `1.2.2 < 1.2.3`. -/
theorem c3_witness :
    svLT ⟨1, 2, 2, [], []⟩ ⟨1, 2, 3, [], []⟩ = true :=
  (c3_regression_guard regressionInput
      { regressionInput with versions := regressionErrVersions }
      ⟨1, 2, 2, [], []⟩ ⟨1, 2, 3, [], []⟩ rfl rfl).2.1 rfl

/-- C4 (amended): for marker-free `p` and `v`, parsing `p+up v` returns
`(p, v, true)`; and with a second marker present, the returned version is
the segment strictly between the first and second occurrence (Go
`strings.Split` element 1), not the entire remainder after the first. -/
theorem c4_split_at_first_marker (p v w : Str)
    (hp : containsUp p = false) (hv : containsUp v = false) :
    parseRepoPrefixVersionIfAny (p ++ '+' :: 'u' :: 'p' :: v) = (p, v, true) ∧
    parseRepoPrefixVersionIfAny (p ++ '+' :: 'u' :: 'p' :: (v ++ '+' :: 'u' :: 'p' :: w)) = (p, v, true) :=
  ⟨parse_after_marker p v hp hv, parse_two_markers p v w hp hv⟩

/-- C4 witness: `"a+upb"` parses to `("a", "b", true)` and `"a+upb+upc"`
also parses to `("a", "b", true)`. -/
theorem c4_witness :
    parseRepoPrefixVersionIfAny ("a".toList ++ '+' :: 'u' :: 'p' :: "b".toList) =
      ("a".toList, "b".toList, true) ∧
    parseRepoPrefixVersionIfAny
        ("a".toList ++ '+' :: 'u' :: 'p' :: ("b".toList ++ '+' :: 'u' :: 'p' :: "c".toList)) =
      ("a".toList, "b".toList, true) :=
  c4_split_at_first_marker "a".toList "b".toList "c".toList (by decide) (by decide)

/-- C4 counterexample: on `"a+upb+upc"` the parser returns version `"b"`,
not the claimed entire remainder `"b+upc"`. -/
theorem c4_counterexample :
    (parseRepoPrefixVersionIfAny ("a+upb+upc".toList)).2.1 = "b".toList ∧
    (parseRepoPrefixVersionIfAny ("a+upb+upc".toList)).2.1 ≠ "b+upc".toList ∧
    (parseRepoPrefixVersionIfAny ("a+upb+upc".toList)).2.2 = true := by
  refine ⟨by decide, by decide, by decide⟩

/-- C5 (amended): the patch-only and minor-or-major conditions are mutually
exclusive; at least one holds exactly when some component of `toRelease`
strictly exceeds `latest`'s; and when no component strictly increases (a
case Step A admits, e.g. equal versions) neither bump applies and the
repo-prefix is carried unchanged. -/
theorem c5_bump_classification (b : Bump) (rule lrp tr la : SemVersion)
    (hrule : semverMake (b.versionRules.Rules b.versionRules.BranchVersion).Min = .ok rule)
    (htxt : ¬ b.versions.latestRepoPrefix.txt = [])
    (hsvr : b.versions.latestRepoPrefix.svr = some lrp)
    (hsync : semverMake b.versions.latestRepoPrefix.txt = .ok lrp)
    (hmaj : rule.major = lrp.major)
    (htr : b.versions.toRelease.svr = some tr)
    (hla : b.versions.latest.svr = some la) :
    (¬ ((tr.patch > la.patch ∧ ¬ tr.major > la.major ∧ ¬ tr.minor > la.minor) ∧
        (tr.minor > la.minor ∨ tr.major > la.major))) ∧
    (((tr.patch > la.patch ∧ ¬ tr.major > la.major ∧ ¬ tr.minor > la.minor) ∨
        (tr.minor > la.minor ∨ tr.major > la.major)) ↔
      (tr.major > la.major ∨ tr.minor > la.minor ∨ tr.patch > la.patch)) ∧
    (¬ tr.major > la.major → ¬ tr.minor > la.minor → ¬ tr.patch > la.patch →
       applyVersionRules b = .ok { b with versions := { b.versions with toReleaseRepoPrefix :=
         ⟨svString lrp, some lrp⟩ } }) := by
  refine ⟨by tauto, by tauto, fun hM hm hP => ?_⟩
  have hmas := applyVersionRulesV_continuation b rule lrp tr la hrule htxt hsvr hsync hmaj htr hla
  have hc : contBump lrp tr la = lrp := by
    simp [contBump, decide_eq_false hM, decide_eq_false hm, decide_eq_false hP]
  unfold applyVersionRules
  rw [hmas, hc]

/-- C5 witness: with `toRelease = latest = 1.2.3` the repo-prefix `104.2.0`
is carried unchanged. -/
theorem c5_witness :
    applyVersionRules equalVersionsInput = .ok { equalVersionsInput with versions :=
      { equalVersionsInput.versions with toReleaseRepoPrefix :=
        ⟨"104.2.0".toList, some ⟨104, 2, 0, [], []⟩⟩ } } :=
  (c5_bump_classification equalVersionsInput ⟨104, 0, 0, [], []⟩ ⟨104, 2, 0, [], []⟩
      ⟨1, 2, 3, [], []⟩ ⟨1, 2, 3, [], []⟩ rfl (by decide) rfl rfl rfl rfl rfl).2.2
    (by decide) (by decide) (by decide)

/-- C5 counterexample: `latest = "104.2.0+up1.2.3"`, `toRelease = "1.2.3"`
passes Step A, yet the result `104.2.0` is neither the patch-bump `104.2.1`
nor the minor-bump `104.3.0`: neither of the two cases applied. -/
theorem c5_counterexample :
    (Res.okState (calculateNextVersion equalVersionsPipelineInput)).map
        (fun b2 => b2.versions.toReleaseRepoPrefix.svr) = some (some ⟨104, 2, 0, [], []⟩) ∧
    (⟨104, 2, 0, [], []⟩ : SemVersion) ≠ ⟨104, 2, 1, [], []⟩ ∧
    (⟨104, 2, 0, [], []⟩ : SemVersion) ≠ ⟨104, 3, 0, [], []⟩ := by
  refine ⟨rfl, by decide, by decide⟩

/-- C6: the validator returns the first failure of its fixed ordered check
list with a distinct stable error per check - but the order interleaves the
checks per additional chart (each chart's upstream check, then its own CRD
checks), rather than running all upstream checks before all CRD checks as
the claim states. -/
theorem c6_validator_first_failure (pkg : Package) :
    parsePackageYaml [pkg] =
      (match firstFailure (codeOrderChecks pkg) with
       | some e => .error e
       | none => .ok pkg) := by
  simp only [parsePackageYaml, codeOrderChecks, rootChecksSpec, List.cons_append,
    List.nil_append, firstFailure]
  by_cases h1 : pkg.Auto = false
  · simp [h1]
  · by_cases h2 : pkg.Name = []
    · simp [h1, h2]
    · by_cases h3 : pkg.Version.isSome
      · simp [h1, h2, h3]
      · by_cases h4 : pkg.PackageVersion.isSome
        · simp [h1, h2, h3, h4]
        · by_cases h5 : pkg.DoNotRelease = true
          · simp [h1, h2, h3, h4, h5]
          · by_cases h6 : pkg.Chart.WorkingDir = []
            · simp [h1, h2, h3, h4, h5, h6]
            · by_cases h7 : List.isSuffixOf ['.', 'g', 'i', 't'] pkg.Chart.Upstream.URL
              · by_cases h8 : pkg.Chart.Upstream.Commit.isSome
                · simp [h1, h2, h3, h4, h5, h6, h7, h8, checkUpstreamOptions]
                · by_cases h9 : pkg.Chart.Upstream.ChartRepoBranch.isNone
                  · simp [h1, h2, h3, h4, h5, h6, h7, h8, h9, checkUpstreamOptions]
                  · by_cases h10 : pkg.Chart.Upstream.Subdirectory.isNone
                    · simp [h1, h2, h3, h4, h5, h6, h7, h8, h9, h10, checkUpstreamOptions]
                    · have hnone : checkUpstreamOptions pkg.Chart.Upstream = none := by
                        simp [checkUpstreamOptions, h7, h8, h9, h10]
                      simp only [h1, h2, h3, h4, h5, h6, h7, h8, h9, h10, hnone, if_false,
                        Bool.not_true, if_true, eq_self_iff_true, List.nil_append,
                        List.append_eq, ite_false, ite_true]
                      rw [← checkAdditionalCharts_eq]
                      cases hadd : checkAdditionalCharts pkg.AdditionalCharts <;> simp [hadd]
              · simp [h1, h2, h3, h4, h5, h6, h7, checkUpstreamOptions]

/-- C6 counterexample: on `interleavedPkg` the code returns the FIRST
additional chart's CRD error, while the claim's order (all upstream checks
before any CRD check) would return the second chart's URL error. -/
theorem c6_counterexample :
    parsePackageYaml [interleavedPkg] = .error .errAdditionalChartWorkDir ∧
    firstFailure (specOrderChecks interleavedPkg) = some .errChartURL ∧
    Err.errAdditionalChartWorkDir ≠ Err.errChartURL := by
  refine ⟨rfl, rfl, by decide⟩

/-- C7: an error from `loadVersions` or `applyVersionRules` is returned
unchanged by `calculateNextVersion`, and on every error return the release
descriptor's chart-version field and the package's auto-generated bump
marker are exactly as they were on entry. -/
theorem c7_no_partial_output (b : Bump) :
    (∀ e b1, loadVersions b = .err e b1 → calculateNextVersion b = .err e b1) ∧
    (∀ b1 e b2, loadVersions b = .ok b1 → applyVersionRules b1 = .err e b2 →
       calculateNextVersion b = .err e b2) ∧
    (∀ e b2, calculateNextVersion b = .err e b2 →
       b2.releaseYaml.ChartVersion = b.releaseYaml.ChartVersion ∧
       b2.Pkg.AutoGeneratedBumpVersion = b.Pkg.AutoGeneratedBumpVersion) := by
  refine ⟨fun e b1 h => ?_, fun b1 e b2 h1 h2 => ?_, fun e b2 h => calculateNextVersion_err_preserves b e b2 h⟩
  · simp only [calculateNextVersion, h]
  · simp only [calculateNextVersion, h1, h2]

/-- C7 witness: an empty latest version aborts the bump with
`errChartLatestVersion` and the output fields untouched. -/
theorem c7_witness :
    calculateNextVersion emptyLatestInput =
      .err .errChartLatestVersion { emptyLatestInput with versions := emptyVersions } :=
  (c7_no_partial_output emptyLatestInput).1 .errChartLatestVersion
    { emptyLatestInput with versions := emptyVersions } rfl

/-- C8 (amended): after Steps A and B succeed, the Step C parse of
`"<toReleaseRepoPrefix>+up<toRelease>"` either succeeds, assigning the two
output fields, or PANICS (`semver.MustParse` aborts the program) - its
failure is never surfaced as an ordinary error return. -/
theorem c8_stepC_panic (b b1 b2 : Bump)
    (hload : loadVersions b = .ok b1)
    (happly : applyVersionRules b1 = .ok b2) :
    (∀ e, semverMake (b2.versions.toReleaseRepoPrefix.txt ++ '+' :: 'u' :: 'p' :: b2.versions.toRelease.txt) = .error e →
       calculateNextVersion b = .panicked b2) ∧
    (∀ sv, semverMake (b2.versions.toReleaseRepoPrefix.txt ++ '+' :: 'u' :: 'p' :: b2.versions.toRelease.txt) = .ok sv →
       calculateNextVersion b = .ok
         { b2 with
             releaseYaml := { b2.releaseYaml with
               ChartVersion := b2.versions.toReleaseRepoPrefix.txt ++ '+' :: 'u' :: 'p' :: b2.versions.toRelease.txt },
             Pkg := { b2.Pkg with AutoGeneratedBumpVersion := some sv } }) := by
  constructor
  · intro e he
    simp only [calculateNextVersion, hload, happly, he]
  · intro sv hsv
    simp only [calculateNextVersion, hload, happly, hsv]

/-- C8 witness: upstream `1.0.1+abc` passes Steps A and B, and the Step C
parse of `105.0.0+up1.0.1+abc` fails, so the run panics. -/
theorem c8_witness :
    calculateNextVersion buildMetaInput =
      .panicked { buildMetaInput with versions := buildMetaApplied } :=
  (c8_stepC_panic buildMetaInput { buildMetaInput with versions := buildMetaLoaded }
      { buildMetaInput with versions := buildMetaApplied } rfl rfl).1
    (.invalidCharBuildMeta "1+abc".toList) rfl

/-- C8 counterexample: on `buildMetaInput` the computation panics and
returns no error, contradicting the claim that a Step C parse failure is
surfaced as an ordinary error return. -/
theorem c8_counterexample :
    (calculateNextVersion buildMetaInput).isPanicked = true ∧
    (calculateNextVersion buildMetaInput).errOf = none := ⟨rfl, rfl⟩

/-- C9 (amended): the compose-then-parse round trip returns `(p, v, true)`
for all MARKER-FREE `p` and `v`, and parsing any marker-free string returns
it unchanged with `found = false`. -/
theorem c9_roundtrip :
    (∀ p v : Str, containsUp p = false → containsUp v = false →
       parseRepoPrefixVersionIfAny (p ++ '+' :: 'u' :: 'p' :: v) = (p, v, true)) ∧
    (∀ s : Str, containsUp s = false → parseRepoPrefixVersionIfAny s = ([], s, false)) :=
  ⟨fun p v hp hv => parse_after_marker p v hp hv, fun s h => parse_no_marker s h⟩

/-- C9 witness: composing `104.2.0` and `1.2.3` round-trips, and `1.2.3`
parses to itself with `found = false`. -/
theorem c9_witness :
    parseRepoPrefixVersionIfAny ("104.2.0".toList ++ '+' :: 'u' :: 'p' :: "1.2.3".toList) =
      ("104.2.0".toList, "1.2.3".toList, true) ∧
    parseRepoPrefixVersionIfAny ("1.2.3".toList) = ([], "1.2.3".toList, false) :=
  ⟨c9_roundtrip.1 "104.2.0".toList "1.2.3".toList (by decide) (by decide),
   c9_roundtrip.2 "1.2.3".toList (by decide)⟩

/-- C9 counterexample: for `p = ""` and `v = "a+upb"` the composed string
`"+upa+upb"` parses to `("", "a", true)`, not `("", "a+upb", true)`, so the
round trip fails for arbitrary strings. -/
theorem c9_counterexample :
    parseRepoPrefixVersionIfAny (([] : Str) ++ '+' :: 'u' :: 'p' :: "a+upb".toList) ≠
      (([] : Str), "a+upb".toList, true) ∧
    parseRepoPrefixVersionIfAny (([] : Str) ++ '+' :: 'u' :: 'p' :: "a+upb".toList) =
      (([] : Str), "a".toList, true) := by
  refine ⟨by decide, by decide⟩

/-- C10 (amended): in every continuation computation whose incremented
component does not overflow uint64, the computed repo-prefix is not below
the previous one in semantic-version order and keeps its major component. -/
theorem c10_prefix_monotonic (b : Bump) (rule lrp tr la : SemVersion)
    (hrule : semverMake (b.versionRules.Rules b.versionRules.BranchVersion).Min = .ok rule)
    (htxt : ¬ b.versions.latestRepoPrefix.txt = [])
    (hsvr : b.versions.latestRepoPrefix.svr = some lrp)
    (hsync : semverMake b.versions.latestRepoPrefix.txt = .ok lrp)
    (hmaj : rule.major = lrp.major)
    (htr : b.versions.toRelease.svr = some tr)
    (hla : b.versions.latest.svr = some la)
    (hpo : lrp.patch + 1 < 2 ^ 64) (hmo : lrp.minor + 1 < 2 ^ 64) :
    ∀ b2 trp, applyVersionRules b = .ok b2 →
      b2.versions.toReleaseRepoPrefix.svr = some trp →
      svLT trp lrp = false ∧ trp.major = lrp.major := by
  intro b2 trp h2 hsvr2
  have hmas := applyVersionRulesV_continuation b rule lrp tr la hrule htxt hsvr hsync hmaj htr hla
  unfold applyVersionRules at h2
  rw [hmas] at h2
  injection h2 with h2
  subst h2
  simp only at hsvr2
  injection hsvr2 with hsvr2
  subst hsvr2
  rcases Classical.em (tr.minor > la.minor ∨ tr.major > la.major) with hOr | hNOr
  · have hc : contBump lrp tr la = { lrp with minor := (lrp.minor + 1) % 2 ^ 64, patch := 0 } := by
      rcases hOr with h | h <;> simp [contBump, decide_eq_true h]
    rw [hc]
    constructor
    · exact svLT_eq_false_of_compare_one _ _
        (svCompare_of_minor_gt _ _ rfl (by show lrp.minor < (lrp.minor + 1) % 2 ^ 64; rw [Nat.mod_eq_of_lt hmo]; omega))
    · rfl
  · have hMi : ¬ tr.minor > la.minor := fun h => hNOr (Or.inl h)
    have hMa : ¬ tr.major > la.major := fun h => hNOr (Or.inr h)
    by_cases hPa : tr.patch > la.patch
    · have hc : contBump lrp tr la = { lrp with patch := (lrp.patch + 1) % 2 ^ 64 } := by
        simp [contBump, decide_eq_true hPa, decide_eq_false hMa, decide_eq_false hMi]
      rw [hc]
      constructor
      · exact svLT_eq_false_of_compare_one _ _
          (svCompare_of_patch_gt _ _ rfl rfl (by show lrp.patch < (lrp.patch + 1) % 2 ^ 64; rw [Nat.mod_eq_of_lt hpo]; omega))
      · rfl
    · have hc : contBump lrp tr la = lrp := by
        simp [contBump, decide_eq_false hPa, decide_eq_false hMa, decide_eq_false hMi]
      rw [hc]
      exact ⟨svLT_self lrp, rfl⟩

/-- C10 witness: the patch-only example bumps `104.2.0` to `104.2.1`, which
is not below it and keeps major `104`. -/
theorem c10_witness :
    svLT ⟨104, 2, 1, [], []⟩ ⟨104, 2, 0, [], []⟩ = false ∧
    (⟨104, 2, 1, [], []⟩ : SemVersion).major = (⟨104, 2, 0, [], []⟩ : SemVersion).major :=
  (c10_prefix_monotonic patchBumpInput ⟨104, 0, 0, [], []⟩ ⟨104, 2, 0, [], []⟩
      ⟨1, 2, 4, [], []⟩ ⟨1, 2, 3, [], []⟩ rfl (by decide) rfl rfl rfl rfl rfl
      (by decide) (by decide))
    { patchBumpInput with versions := { patchBumpInput.versions with toReleaseRepoPrefix :=
        ⟨"104.2.1".toList, some ⟨104, 2, 1, [], []⟩⟩ } }
    ⟨104, 2, 1, [], []⟩ rfl rfl

/-- C10 counterexample: with the repo-prefix minor at `2^64 - 1`, a minor
bump wraps the prefix from `7.(2^64-1).3` down to `7.0.0`, which IS below
the previous prefix: without the overflow hypothesis the claim fails. -/
theorem c10_counterexample :
    (Res.okState (calculateNextVersion overflowMinorInput)).map
        (fun b2 => b2.versions.toReleaseRepoPrefix.svr) = some (some ⟨7, 0, 0, [], []⟩) ∧
    svLT ⟨7, 0, 0, [], []⟩ ⟨7, 18446744073709551615, 3, [], []⟩ = true := by
  refine ⟨rfl, by decide⟩
